import Mathlib

/-!
Shallow embedding of the chickenwire hexagonal-grid library (Rust) in Lean 4,
with theorems checking the natural-language specification against the code.

Conventions of the embedding:
* Rust `i32` is modelled as `Int` (no claim in scope depends on 32-bit
  wrap-around), Rust `u32`/`usize` as `Nat`.
* Rust truncating division `/` on `i32` is `Int.tdiv` (rounds toward zero);
  the bitwise test `n & 1` on `i32` is the low bit of the two's-complement
  representation, i.e. `n.emod 2` (which is `0` or `1` for every `Int`).
* A Rust function that can panic is embedded with an `Option`/`Except` result
  where `none` (resp. the dead default of a `getD`) marks the panic; this is
  noted at each such definition.
* `Vec<T>` is `List T`; `petgraph::StableGraph` and `HashMap` are embedded as
  explicit association lists, see `HexGraph` and `HexGrid` below.
-/

namespace Chickenwire

/-! ## Cube coordinates (src/coordinate/cube.rs) -/

/-- Cube coordinate: three signed integers.  The Rust struct has private
fields and no type-level invariant; the zero-sum constraint is enforced by
the (panicking or Result-returning) constructors, so we model it as a plain
structure plus the predicate `Cube.valid`. -/
@[ext]
structure Cube where
  x : Int
  y : Int
  z : Int
deriving DecidableEq

/-- The constraint documented for `Cube`: x + y + z = 0. -/
def Cube.valid (c : Cube) : Prop := c.x + c.y + c.z = 0

instance : DecidablePred Cube.valid := fun c => by unfold Cube.valid; infer_instance

/-- Vector addition of cube coordinates (the Rust `Add` impl). -/
instance : Add Cube := ⟨fun a b => ⟨a.x + b.x, a.y + b.y, a.z + b.z⟩⟩

/-- Vector subtraction of cube coordinates (the Rust `Sub` impl). -/
instance : Sub Cube := ⟨fun a b => ⟨a.x - b.x, a.y - b.y, a.z - b.z⟩⟩

/-- Scalar multiplication (the Rust `Mul<i32>` impl; `i32 * Cube` delegates
to it). -/
def Cube.mulScalar (c : Cube) (n : Int) : Cube := ⟨c.x * n, c.y * n, c.z * n⟩

/-- Scalar division, componentwise and truncating toward zero (the Rust
`Div<i32>` impl).  Rust `i32` division panics on divisor 0 — the impl's own
doc comment says "Panics when trying to divide by zero" — and the `none`
branch models exactly that panic; there is no error-value channel in the
source (`fn div(self, n: i32) -> Self`). -/
def Cube.div (c : Cube) (n : Int) : Option Cube :=
  if n = 0 then none else some ⟨c.x.tdiv n, c.y.tdiv n, c.z.tdiv n⟩

@[simp] theorem Cube.add_x (a b : Cube) : (a + b).x = a.x + b.x := rfl
@[simp] theorem Cube.add_y (a b : Cube) : (a + b).y = a.y + b.y := rfl
@[simp] theorem Cube.add_z (a b : Cube) : (a + b).z = a.z + b.z := rfl
@[simp] theorem Cube.sub_x (a b : Cube) : (a - b).x = a.x - b.x := rfl
@[simp] theorem Cube.sub_y (a b : Cube) : (a - b).y = a.y - b.y := rfl
@[simp] theorem Cube.sub_z (a b : Cube) : (a - b).z = a.z - b.z := rfl
@[simp] theorem Cube.mulScalar_x (a : Cube) (n : Int) : (a.mulScalar n).x = a.x * n := rfl
@[simp] theorem Cube.mulScalar_y (a : Cube) (n : Int) : (a.mulScalar n).y = a.y * n := rfl
@[simp] theorem Cube.mulScalar_z (a : Cube) (n : Int) : (a.mulScalar n).z = a.z * n := rfl

/-- The `ORIGIN` constant. -/
def Cube.ORIGIN : Cube := ⟨0, 0, 0⟩

/-- The `NEIGHBOR_OFFSETS` table: unit vectors of the six sides, beginning
Northeast and proceeding clockwise. -/
def Cube.NEIGHBOR_OFFSETS : List (Int × Int × Int) :=
  [(1, 0, -1), (1, -1, 0), (0, -1, 1), (-1, 0, 1), (-1, 1, 0), (0, 1, -1)]

/-- The `DIAGONAL_OFFSETS` table, beginning Southeast and proceeding
clockwise. -/
def Cube.DIAGONAL_OFFSETS : List (Int × Int × Int) :=
  [(1, -2, 1), (-1, -1, 2), (-2, 1, 1), (-1, 2, -1), (1, 1, -2), (2, -1, -1)]

/-- The checked constructor `Cube::from_coords` (returns `Result`). -/
def Cube.fromCoords (x y z : Int) : Except String Cube :=
  if z = 0 - x - y then Except.ok ⟨x, y, z⟩ else Except.error "invalid Cube coordinate"

/-- The `From<(i32,i32,i32)>` impl, which panics on an invalid tuple;
`none` models the panic. -/
def Cube.fromTuple : Int × Int × Int → Option Cube :=
  fun t => if t.2.2 = 0 - t.1 - t.2.1 then some ⟨t.1, t.2.1, t.2.2⟩ else none

/-- The panicking constructor `Cube::force_from_coords`
(`from_coords(...).unwrap()`).  The `getD` default models the panic; every
use verified below is shown to stay on the `ok` branch. -/
def Cube.forceFromCoords (x y z : Int) : Cube :=
  ((Cube.fromCoords x y z).toOption).getD Cube.ORIGIN

/-- The setter `Cube::set_coords`: stores x and y and RE-DERIVES z as
0 - x - y, silently ignoring the third argument (named `_z` in the
source). -/
def Cube.setCoords (_c : Cube) (x y _z : Int) : Cube := ⟨x, y, 0 - x - y⟩

/-- The neighbor offsets of `NEIGHBOR_OFFSETS` as `Cube` values, for stating
lemmas (index taken modulo nothing; out-of-range indices give the origin,
matching `getD` below only through `% 6`). -/
def nOff : Nat → Cube
  | 0 => ⟨1, 0, -1⟩
  | 1 => ⟨1, -1, 0⟩
  | 2 => ⟨0, -1, 1⟩
  | 3 => ⟨-1, 0, 1⟩
  | 4 => ⟨-1, 1, 0⟩
  | 5 => ⟨0, 1, -1⟩
  | _ => Cube.ORIGIN

/-- The diagonal offsets as `Cube` values. -/
def dOff : Nat → Cube
  | 0 => ⟨1, -2, 1⟩
  | 1 => ⟨-1, -1, 2⟩
  | 2 => ⟨-2, 1, 1⟩
  | 3 => ⟨-1, 2, -1⟩
  | 4 => ⟨1, 1, -2⟩
  | 5 => ⟨2, -1, -1⟩
  | _ => Cube.ORIGIN

/-- `Cube::neighbor`: `self + Self::from(NEIGHBOR_OFFSETS[index % 6])`.
The `From` conversion never panics here because every table entry satisfies
the zero-sum check, so its `getD` default is dead. -/
def Cube.neighbor (c : Cube) (index : Nat) : Cube :=
  c + (Cube.fromTuple (Cube.NEIGHBOR_OFFSETS.getD (index % 6) (0, 0, 0))).getD Cube.ORIGIN

/-- `Cube::neighbors`: the six neighbors for indices 0..6 in order. -/
def Cube.neighbors (c : Cube) : List Cube :=
  (List.range 6).map c.neighbor

/-- `Cube::diagonal`: `self + Self::from(DIAGONAL_OFFSETS[index % 6])`. -/
def Cube.diagonal (c : Cube) (index : Nat) : Cube :=
  c + (Cube.fromTuple (Cube.DIAGONAL_OFFSETS.getD (index % 6) (0, 0, 0))).getD Cube.ORIGIN

/-- `Cube::diagonals`. -/
def Cube.diagonals (c : Cube) : List Cube :=
  (List.range 6).map c.diagonal

/-- `Cube::dist`: Chebyshev distance, max of componentwise absolute
differences. -/
def Cube.dist (c other : Cube) : Int :=
  max (max |c.x - other.x| |c.y - other.y|) |c.z - other.z|

/-- The loop body iteration of `Cube::rotate_cw`: repeatedly replaces the
vector through `set_coords(-z, -x, -y)`. -/
def Cube.rotateCwAux (vector : Cube) : Nat → Cube
  | 0 => vector
  | n + 1 => Cube.rotateCwAux (vector.setCoords (0 - vector.z) (0 - vector.x) (0 - vector.y)) n

/-- `Cube::rotate_cw(point, num_turns)`: rotates `point` around `self` by
`num_turns % 6` clockwise 60-degree turns. -/
def Cube.rotateCw (c point : Cube) (numTurns : Nat) : Cube :=
  Cube.rotateCwAux (point - c) (numTurns % 6) + c

/-- The loop body iteration of `Cube::rotate_cc`, which rebuilds the vector
with the panicking `force_from_coords(-y, -z, -x)`; the panic (modelled by
the `getD` default inside `forceFromCoords`) is dead whenever the incoming
vector is zero-sum. -/
def Cube.rotateCcAux (vector : Cube) : Nat → Cube
  | 0 => vector
  | n + 1 =>
    Cube.rotateCcAux (Cube.forceFromCoords (0 - vector.y) (0 - vector.z) (0 - vector.x)) n

/-- `Cube::rotate_cc(point, num_turns)`. -/
def Cube.rotateCc (c point : Cube) (numTurns : Nat) : Cube :=
  Cube.rotateCcAux (point - c) (numTurns % 6) + c

/-- The inner loop of `Cube::ring`: push the running coordinate and step it
to `next_coord.neighbors()[side_dir]`, `radius` times. -/
def Cube.walkSide (nextCoord : Cube) (sideDir : Nat) : Nat → List Cube
  | 0 => []
  | n + 1 =>
    nextCoord :: Cube.walkSide (nextCoord.neighbors.getD sideDir Cube.ORIGIN) sideDir n

/-- `Cube::ring(radius)`: `[self]` for radius 0; otherwise, for each of the
six sides, start `radius` steps along that side's direction and walk
`radius` coordinates in the direction `(side + 2) % 6` (`init_index = 2` in
the source). -/
def Cube.ring (c : Cube) (radius : Nat) : List Cube :=
  if radius = 0 then [c]
  else
    (List.range 6).flatMap (fun side =>
      Cube.walkSide
        (((Cube.fromTuple (Cube.NEIGHBOR_OFFSETS.getD side (0, 0, 0))).getD Cube.ORIGIN).mulScalar
            (radius : Int) + c)
        ((side + 2) % 6) radius)

/-- `Cube::spiral(radius)`: concatenation of `ring 0` through `ring radius`. -/
def Cube.spiral (c : Cube) (radius : Nat) : List Cube :=
  (List.range (radius + 1)).flatMap (fun r => c.ring r)

/-! ## Axial coordinates (src/coordinate/axial.rs) -/

/-- Axial coordinate: public fields q, r. -/
@[ext]
structure Axial where
  q : Int
  r : Int
deriving DecidableEq

/-- The `From<Axial> for Cube` impl: x = q, z = r, y derived. -/
def Cube.fromAxial (coord : Axial) : Cube :=
  ⟨coord.q, 0 - coord.q - coord.r, coord.r⟩

/-- The `From<Cube> for Axial` impl: keeps x and z. -/
def Axial.fromCube (coord : Cube) : Axial := ⟨coord.x, coord.z⟩

/-! ## Offset coordinates (src/coordinate/offset.rs) -/

/-- Offset coordinate: public fields col, row; no standalone invariant. -/
@[ext]
structure Offset where
  col : Int
  row : Int
deriving DecidableEq

/-- `Offset::oflat_to_cube` (Flat tilt, Odd parity).  `col & 1` is
`col.emod 2`; the division is exact, and the final `force_from_coords`
cannot panic because y is derived from the zero-sum constraint. -/
def Offset.oflat_to_cube (o : Offset) : Cube :=
  let x := o.col
  let z := o.row - (Int.tdiv (o.col - o.col.emod 2) 2)
  Cube.forceFromCoords x (0 - x - z) z

/-- `Offset::eflat_to_cube` (Flat tilt, Even parity). -/
def Offset.eflat_to_cube (o : Offset) : Cube :=
  let x := o.col
  let z := o.row - (Int.tdiv (o.col + o.col.emod 2) 2)
  Cube.forceFromCoords x (0 - x - z) z

/-- `Offset::osharp_to_cube` (Sharp tilt, Odd parity). -/
def Offset.osharp_to_cube (o : Offset) : Cube :=
  let x := o.col - (Int.tdiv (o.row - o.row.emod 2) 2)
  let z := o.row
  Cube.forceFromCoords x (0 - x - z) z

/-- `Offset::esharp_to_cube` (Sharp tilt, Even parity). -/
def Offset.esharp_to_cube (o : Offset) : Cube :=
  let x := o.col - (Int.tdiv (o.row + o.row.emod 2) 2)
  let z := o.row
  Cube.forceFromCoords x (0 - x - z) z

/-! ## Double coordinates (src/coordinate/double.rs) -/

/-- Double (interlaced) coordinate: private fields col, row with the
constructor-enforced constraint that col + row is even. -/
@[ext]
structure Double where
  col : Int
  row : Int
deriving DecidableEq

/-- The `Double` validity constraint: (col + row) even. -/
def Double.valid (d : Double) : Prop := (d.col + d.row) % 2 = 0

instance : DecidablePred Double.valid := fun d => by unfold Double.valid; infer_instance

/-- The checked constructor `Double::from_coords`. -/
def Double.fromCoords (col row : Int) : Except String Double :=
  if (col + row).emod 2 = 0 then Except.ok ⟨col, row⟩
  else Except.error "invalid Double coordinate"

/-- `Double::flat_to_cube` (Flat tilt): x = col, z = (row - col) / 2
(exact on valid coordinates), y derived. -/
def Double.flat_to_cube (d : Double) : Cube :=
  let x := d.col
  let z := Int.tdiv (d.row - d.col) 2
  Cube.forceFromCoords x (0 - x - z) z

/-- `Double::sharp_to_cube` (Sharp tilt): x = (col - row) / 2,
z = row / 2 — note that `row / 2` truncates whenever row is odd, which a
valid Double permits (only col + row must be even). -/
def Double.sharp_to_cube (d : Double) : Cube :=
  let x := Int.tdiv (d.col - d.row) 2
  let z := Int.tdiv d.row 2
  Cube.forceFromCoords x (0 - x - z) z

/-- The shared neighbor loop `Double::offset_map` over a fixed 6-entry
offset table. -/
def Double.offset_map (d : Double) (offsets : List (Int × Int)) : List Double :=
  (List.range 6).map (fun side =>
    ⟨(offsets.getD side (0, 0)).1 + d.col, (offsets.getD side (0, 0)).2 + d.row⟩)

/-- `Double::flat_neighbors`. -/
def Double.flat_neighbors (d : Double) : List Double :=
  d.offset_map [(1, -1), (1, 1), (0, 2), (-1, 1), (-1, -1), (0, -2)]

/-- `Double::sharp_neighbors`. -/
def Double.sharp_neighbors (d : Double) : List Double :=
  d.offset_map [(1, -1), (2, 0), (1, 1), (-1, 1), (-2, 0), (-1, -1)]

/-! ## Coordinate union (src/coordinate/mod.rs) -/

/-- The coordinate-system tag. -/
inductive CoordSys where
  | Axial
  | Cube
  | Double
  | Offset
deriving DecidableEq

/-- The tagged coordinate union: system tag plus up to three integer
payload fields (all fields private in the source). -/
structure MultiCoord where
  sys : CoordSys
  a : Int
  b : Int
  c : Option Int
deriving DecidableEq

/-- `From<Axial> for MultiCoord`. -/
def MultiCoord.fromAxial (coord : Axial) : MultiCoord :=
  ⟨CoordSys.Axial, coord.q, coord.r, none⟩

/-- `From<Cube> for MultiCoord`. -/
def MultiCoord.fromCube (coord : Cube) : MultiCoord :=
  ⟨CoordSys.Cube, coord.x, coord.y, some coord.z⟩

/-- `From<Double> for MultiCoord`. -/
def MultiCoord.fromDouble (coord : Double) : MultiCoord :=
  ⟨CoordSys.Double, coord.col, coord.row, none⟩

/-- `From<Offset> for MultiCoord`. -/
def MultiCoord.fromOffset (coord : Offset) : MultiCoord :=
  ⟨CoordSys.Offset, coord.col, coord.row, none⟩

/-- The `From<MultiCoord> for Axial` impl.  It panics on Double/Offset tags
and on a missing third field of a Cube tag; those branches (the final `_`
case and the `getD`) are reachable only from states the public constructors
never produce, and the conversion methods below only call it on
Axial/Cube-tagged values. -/
def Axial.fromMultiUnchecked (m : MultiCoord) : Axial :=
  match m.sys with
  | CoordSys.Axial => ⟨m.a, m.b⟩
  | CoordSys.Cube => ⟨m.a, m.c.getD 0⟩
  | _ => ⟨0, 0⟩

/-- The `From<MultiCoord> for Cube` impl (same panic conventions as
`Axial.fromMultiUnchecked`). -/
def Cube.fromMultiUnchecked (m : MultiCoord) : Cube :=
  match m.sys with
  | CoordSys.Axial => ⟨m.a, 0 - m.a - m.b, m.b⟩
  | CoordSys.Cube => ⟨m.a, m.b, m.c.getD 0⟩
  | _ => Cube.ORIGIN

/-- The `From<MultiCoord> for Double` impl (panics unless the tag is
Double). -/
def Double.fromMultiUnchecked (m : MultiCoord) : Double :=
  match m.sys with
  | CoordSys.Double => ⟨m.a, m.b⟩
  | _ => ⟨0, 0⟩

/-- The `From<MultiCoord> for Offset` impl (panics unless the tag is
Offset). -/
def Offset.fromMultiUnchecked (m : MultiCoord) : Offset :=
  match m.sys with
  | CoordSys.Offset => ⟨m.a, m.b⟩
  | _ => ⟨0, 0⟩

/-- `MultiCoord::to_axial`: Ok on Axial or Cube tags, Err otherwise. -/
def MultiCoord.toAxial (m : MultiCoord) : Except String Axial :=
  match m.sys with
  | CoordSys.Axial => Except.ok (Axial.fromMultiUnchecked m)
  | CoordSys.Cube => Except.ok (Axial.fromMultiUnchecked m)
  | CoordSys.Double => Except.error "cannot create Axial from Double MultiCoord"
  | CoordSys.Offset => Except.error "cannot create Axial from Offset MultiCoord"

/-- `MultiCoord::to_cube`: Ok on Axial or Cube tags, Err otherwise. -/
def MultiCoord.toCube (m : MultiCoord) : Except String Cube :=
  match m.sys with
  | CoordSys.Axial => Except.ok (Cube.fromMultiUnchecked m)
  | CoordSys.Cube => Except.ok (Cube.fromMultiUnchecked m)
  | CoordSys.Double => Except.error "cannot create Cube from Double MultiCoord"
  | CoordSys.Offset => Except.error "cannot create Cube from Offset MultiCoord"

/-- `MultiCoord::to_double`: Ok only on the Double tag. -/
def MultiCoord.toDouble (m : MultiCoord) : Except String Double :=
  match m.sys with
  | CoordSys.Double => Except.ok (Double.fromMultiUnchecked m)
  | CoordSys.Axial => Except.error "cannot create Double from Axial MultiCoord"
  | CoordSys.Cube => Except.error "cannot create Double from Cube MultiCoord"
  | CoordSys.Offset => Except.error "cannot create Double from Offset MultiCoord"

/-- `MultiCoord::to_offset`: Ok only on the Offset tag. -/
def MultiCoord.toOffset (m : MultiCoord) : Except String Offset :=
  match m.sys with
  | CoordSys.Offset => Except.ok (Offset.fromMultiUnchecked m)
  | CoordSys.Axial => Except.error "cannot create Offset from Axial MultiCoord"
  | CoordSys.Cube => Except.error "cannot create Offset from Cube MultiCoord"
  | CoordSys.Double => Except.error "cannot create Offset from Double MultiCoord"

/-! ## The adjacency-aware container (src/hexgrid.rs) -/

/-- The 8-valued compass used as the edge label of the adjacency graph. -/
inductive Compass where
  | North
  | Northeast
  | East
  | Southeast
  | South
  | Southwest
  | West
  | Northwest
deriving DecidableEq

/-- One clockwise compass step (the match expression inside
`Compass::rotate_cw`). -/
def Compass.cwNext : Compass → Compass
  | Compass.North => Compass.Northeast
  | Compass.Northeast => Compass.East
  | Compass.East => Compass.Southeast
  | Compass.Southeast => Compass.South
  | Compass.South => Compass.Southwest
  | Compass.Southwest => Compass.West
  | Compass.West => Compass.Northwest
  | Compass.Northwest => Compass.North

/-- The loop of `Compass::rotate_cw`.  In the Rust source the loop body
declares a NEW `let cur_dir` that shadows the outer binding and is dropped
at the end of each iteration, so the outer direction never changes; the
embedding reproduces that (the computed step is discarded). -/
def Compass.rotateCwLoop (curDir : Compass) : Nat → Compass
  | 0 => curDir
  | n + 1 =>
    let _shadowed := curDir.cwNext
    Compass.rotateCwLoop curDir n

/-- `Compass::rotate_cw(rotations)` as written: runs the (ineffective) loop
`rotations % 8` times and returns the unchanged direction. -/
def Compass.rotateCw (c : Compass) (rotations : Nat) : Compass :=
  Compass.rotateCwLoop c (rotations % 8)

/-- `Compass::inverse`. -/
def Compass.inverse : Compass → Compass
  | Compass.North => Compass.South
  | Compass.Northeast => Compass.Southwest
  | Compass.East => Compass.West
  | Compass.Southeast => Compass.Northwest
  | Compass.South => Compass.North
  | Compass.Southwest => Compass.Northeast
  | Compass.West => Compass.East
  | Compass.Northwest => Compass.Southeast

/-- Hex orientation. -/
inductive Tilt where
  | Flat
  | Sharp
deriving DecidableEq

/-- Offset patterning. -/
inductive Parity where
  | Even
  | Odd
deriving DecidableEq

/-- The adjacency graph `StableGraph<T, Compass>`, embedded as an explicit
node store plus edge list: nodes are (index, weight) pairs handed out from
the counter `nextId`, edges are (source, target, label) triples appended in
insertion order. -/
structure HexGraph (T : Type) where
  nextId : Nat
  nodes : List (Nat × T)
  edges : List (Nat × Nat × Compass)
deriving DecidableEq

/-- `StableGraph::add_node`: registers the weight under a fresh index and
returns the index. -/
def HexGraph.addNode {T : Type} (g : HexGraph T) (w : T) : HexGraph T × Nat :=
  (⟨g.nextId + 1, g.nodes ++ [(g.nextId, w)], g.edges⟩, g.nextId)

/-- `StableGraph::add_edge`. -/
def HexGraph.addEdge {T : Type} (g : HexGraph T) (a b : Nat) (dir : Compass) : HexGraph T :=
  ⟨g.nextId, g.nodes, g.edges ++ [(a, b, dir)]⟩

/-- Find the weight stored at a node index (`node_weight`). -/
def nodesFind {T : Type} : List (Nat × T) → Nat → Option T
  | [], _ => none
  | e :: rest, i => if e.1 = i then some e.2 else nodesFind rest i

/-- `StableGraph::node_weight`. -/
def HexGraph.nodeWeight {T : Type} (g : HexGraph T) (i : Nat) : Option T :=
  nodesFind g.nodes i

/-- Lookup in the coordinate index (`HashMap::get`). -/
def mapFind : List (Cube × Nat) → Cube → Option Nat
  | [], _ => none
  | e :: rest, k => if e.1 = k then some e.2 else mapFind rest k

/-- Insertion in the coordinate index (`HashMap::insert`): replaces the
binding of an existing key, otherwise adds one. -/
def mapInsert : List (Cube × Nat) → Cube → Nat → List (Cube × Nat)
  | [], k, v => [(k, v)]
  | e :: rest, k, v => if e.1 = k then (k, v) :: rest else e :: mapInsert rest k v

/-- The grid `HexGrid<T>`: layout parameters, the graph, and the
Cube-to-node-index map. -/
structure HexGrid (T : Type) where
  tilt : Tilt
  parity : Parity
  sys : CoordSys
  graph : HexGraph T
  map : List (Cube × Nat)
deriving DecidableEq

/-- The `Default` impl for `HexGrid`: `Tilt::Flat`, `Parity::Even`,
`CoordSys::Axial` (the `Default` impls of the three enums), an empty graph
and an empty map. -/
def HexGrid.defaultGrid (T : Type) : HexGrid T :=
  ⟨Tilt.Flat, Parity.Even, CoordSys.Axial, ⟨0, [], []⟩, []⟩

/-- `HexGrid::cube_from`: normalize a `MultiCoord` to `Cube` using the
grid's tilt and parity. -/
def HexGrid.cubeFrom {T : Type} (g : HexGrid T) (coord : MultiCoord) : Cube :=
  match coord.sys with
  | CoordSys.Offset =>
    let offset := Offset.fromMultiUnchecked coord
    match g.tilt, g.parity with
    | Tilt.Flat, Parity.Odd => offset.oflat_to_cube
    | Tilt.Flat, Parity.Even => offset.eflat_to_cube
    | Tilt.Sharp, Parity.Odd => offset.osharp_to_cube
    | Tilt.Sharp, Parity.Even => offset.esharp_to_cube
  | CoordSys.Double =>
    let double := Double.fromMultiUnchecked coord
    match g.tilt with
    | Tilt.Flat => double.flat_to_cube
    | Tilt.Sharp => double.sharp_to_cube
  | _ => Cube.fromMultiUnchecked coord

/-- `HexGrid::graph_index`. -/
def HexGrid.graphIndex {T : Type} (g : HexGrid T) (coord : MultiCoord) : Option Nat :=
  mapFind g.map (g.cubeFrom coord)

/-- `HexGrid::contains_coord`. -/
def HexGrid.containsCoord {T : Type} (g : HexGrid T) (coord : MultiCoord) : Bool :=
  (g.graphIndex coord).isSome

/-- `HexGrid::get`. -/
def HexGrid.get {T : Type} (g : HexGrid T) (coord : MultiCoord) : Option T :=
  match g.graphIndex coord with
  | some index => g.graph.nodeWeight index
  | none => none

/-- `HexGrid::nlink`, exactly as written: for each of the six geometric
neighbors of `coord` it re-tests the occupancy of COORD ITSELF (the loop
variable `neighbor` is unused in the source) and, on success, adds a pair
of edges between `own_index` and that same index; the running direction is
advanced with the ineffective `rotate_cw(1)`. -/
def HexGrid.nlink {T : Type} (g : HexGrid T) (coord : MultiCoord) : HexGrid T :=
  match g.graphIndex coord with
  | none => g
  | some ownIndex =>
    let ncoords := (g.cubeFrom coord).neighbors
    (ncoords.foldl
      (fun acc _neighbor =>
        let g' := acc.1
        let dir := acc.2
        let g'' :=
          match g'.graphIndex coord with
          | none => g'
          | some otherIndex =>
            { g' with
              graph := ((g'.graph.addEdge ownIndex otherIndex dir).addEdge
                  otherIndex ownIndex dir.inverse) }
        (g'', dir.rotateCw 1))
      (g, Compass.Northeast)).1

/-- `HexGrid::set` as written in the source: on an occupied coordinate the
`Some` arm executes `unimplemented!()` (a panic, modelled by `none`);
otherwise it adds a node, inserts the index entry, and runs `nlink`. -/
def HexGrid.set {T : Type} (g : HexGrid T) (coord : MultiCoord) (data : T) :
    Option (HexGrid T) :=
  match g.get coord with
  | some _ => none
  | none =>
    let step := g.graph.addNode data
    let g' := { g with graph := step.1, map := mapInsert g.map (g.cubeFrom coord) step.2 }
    some (g'.nlink coord)

/-- `HexGrid::add`: error on an occupied coordinate, otherwise delegate to
`set` (whose panic branch is unreachable here). -/
def HexGrid.add {T : Type} (g : HexGrid T) (coord : MultiCoord) (data : T) :
    Option (Except String (HexGrid T)) :=
  if g.containsCoord coord then
    some (Except.error "Grid already contains a value at the coordinate")
  else
    (g.set coord data).map Except.ok

/-- `HexGrid::update`: error on a vacant coordinate, otherwise delegate to
`set` (whose `unimplemented!()` panic arm is exactly what an occupied
coordinate reaches). -/
def HexGrid.update {T : Type} (g : HexGrid T) (coord : MultiCoord) (data : T) :
    Option (Except String (HexGrid T)) :=
  if g.containsCoord coord then
    (g.set coord data).map Except.ok
  else
    some (Except.error "Grid contains no value at the coordinate")

/-- `HexGrid::new_radial(radius, blank_val)`: starts from the default grid
(whose `sys` is `CoordSys::Axial`) and, when radius is nonzero, `set`s every
coordinate of `Cube::ORIGIN.spiral(radius)`; a radius of 0 yields the empty
default grid. -/
def HexGrid.newRadial {T : Type} (radius : Nat) (blankVal : T) : Option (HexGrid T) :=
  if radius = 0 then some (HexGrid.defaultGrid T)
  else
    (Cube.ORIGIN.spiral radius).foldlM
      (fun g newHex => HexGrid.set g (MultiCoord.fromCube newHex) blankVal)
      (HexGrid.defaultGrid T)

/-! ## Basic lemmas about the Cube embedding -/

theorem nOff_valid (j : Nat) : (nOff j).valid := by
  unfold nOff
  split <;> decide

theorem dOff_valid (j : Nat) : (dOff j).valid := by
  unfold dOff
  split <;> decide

theorem Cube.neighbor_eq (c : Cube) (i : Nat) : c.neighbor i = c + nOff (i % 6) := by
  have h6 : i % 6 = 0 ∨ i % 6 = 1 ∨ i % 6 = 2 ∨ i % 6 = 3 ∨ i % 6 = 4 ∨ i % 6 = 5 := by omega
  unfold Cube.neighbor
  rcases h6 with h | h | h | h | h | h <;> rw [h] <;> rfl

theorem Cube.diagonal_eq (c : Cube) (i : Nat) : c.diagonal i = c + dOff (i % 6) := by
  have h6 : i % 6 = 0 ∨ i % 6 = 1 ∨ i % 6 = 2 ∨ i % 6 = 3 ∨ i % 6 = 4 ∨ i % 6 = 5 := by omega
  unfold Cube.diagonal
  rcases h6 with h | h | h | h | h | h <;> rw [h] <;> rfl

theorem Cube.neighbors_getD (c : Cube) (j : Nat) (hj : j < 6) :
    c.neighbors.getD j Cube.ORIGIN = c + nOff j := by
  have h6 : j = 0 ∨ j = 1 ∨ j = 2 ∨ j = 3 ∨ j = 4 ∨ j = 5 := by omega
  have hne : c.neighbors = [c.neighbor 0, c.neighbor 1, c.neighbor 2, c.neighbor 3,
      c.neighbor 4, c.neighbor 5] := rfl
  rcases h6 with h | h | h | h | h | h <;>
    subst h <;> rw [hne] <;> simp [List.getD, Cube.neighbor_eq]

theorem Cube.add_valid {a b : Cube} (ha : a.valid) (hb : b.valid) : (a + b).valid := by
  unfold Cube.valid at *
  simp only [Cube.add_x, Cube.add_y, Cube.add_z]
  omega

theorem Cube.sub_valid {a b : Cube} (ha : a.valid) (hb : b.valid) : (a - b).valid := by
  unfold Cube.valid at *
  simp only [Cube.sub_x, Cube.sub_y, Cube.sub_z]
  omega

theorem Cube.mulScalar_valid {a : Cube} (n : Int) (ha : a.valid) : (a.mulScalar n).valid := by
  unfold Cube.valid at *
  simp only [Cube.mulScalar_x, Cube.mulScalar_y, Cube.mulScalar_z]
  linear_combination n * ha

theorem Cube.setCoords_valid (c : Cube) (x y z : Int) : (c.setCoords x y z).valid := by
  unfold Cube.setCoords Cube.valid
  ring

theorem Cube.forceFromCoords_of_valid (x y z : Int) (h : x + y + z = 0) :
    Cube.forceFromCoords x y z = ⟨x, y, z⟩ := by
  unfold Cube.forceFromCoords Cube.fromCoords
  rw [if_pos (by omega)]
  rfl

theorem Cube.dist_self (c : Cube) : c.dist c = 0 := by
  simp [Cube.dist]

theorem Cube.rotateCwAux_valid {vector : Cube} (hvec : vector.valid) (n : Nat) :
    (Cube.rotateCwAux vector n).valid := by
  induction n generalizing vector with
  | zero => exact hvec
  | succ n ih => exact ih (Cube.setCoords_valid _ _ _ _)

theorem Cube.rotateCcAux_valid {vector : Cube} (hvec : vector.valid) (n : Nat) :
    (Cube.rotateCcAux vector n).valid := by
  induction n generalizing vector with
  | zero => exact hvec
  | succ n ih =>
    rw [Cube.rotateCcAux]
    have hsum : vector.x + vector.y + vector.z = 0 := hvec
    have hstep : Cube.forceFromCoords (0 - vector.y) (0 - vector.z) (0 - vector.x)
        = ⟨0 - vector.y, 0 - vector.z, 0 - vector.x⟩ :=
      Cube.forceFromCoords_of_valid _ _ _ (by omega)
    rw [hstep]
    exact ih (show (0 - vector.y) + (0 - vector.z) + (0 - vector.x) = 0 by omega)

theorem Cube.rotateCw_valid {c p : Cube} (hc : c.valid) (hp : p.valid) (n : Nat) :
    (c.rotateCw p n).valid :=
  Cube.add_valid (Cube.rotateCwAux_valid (Cube.sub_valid hp hc) _) hc

theorem Cube.rotateCc_valid {c p : Cube} (hc : c.valid) (hp : p.valid) (n : Nat) :
    (c.rotateCc p n).valid :=
  Cube.add_valid (Cube.rotateCcAux_valid (Cube.sub_valid hp hc) _) hc

/-! ## Closed form, membership, freedom from duplicates and length of rings -/

/-- The k-th coordinate of side s of the radius-r ring around c, as produced
by the source's walk: start r steps along direction s, walk in direction
(s + 2) % 6. -/
def Cube.ringPoint (c : Cube) (r s k : Nat) : Cube :=
  c + (nOff s).mulScalar (r : Int) + (nOff ((s + 2) % 6)).mulScalar (k : Int)

theorem Cube.ringPoint_valid (c : Cube) (r s k : Nat) (hc : c.valid) :
    (Cube.ringPoint c r s k).valid :=
  Cube.add_valid (Cube.add_valid hc (Cube.mulScalar_valid _ (nOff_valid s)))
    (Cube.mulScalar_valid _ (nOff_valid _))

theorem flatMap_congr_mem {α β : Type} (l : List α) (f g : α → List β)
    (h : ∀ a ∈ l, f a = g a) : l.flatMap f = l.flatMap g := by
  induction l with
  | nil => rfl
  | cons a t ih =>
    simp only [List.flatMap_cons]
    rw [h a (by simp), ih (fun b hb => h b (by simp [hb]))]

theorem Cube.walkSide_eq (j : Nat) (hj : j < 6) (n : Nat) :
    ∀ start : Cube,
      Cube.walkSide start j n
        = (List.range n).map (fun k : Nat => start + (nOff j).mulScalar (k : Int)) := by
  induction n with
  | zero => intro start; simp [Cube.walkSide]
  | succ n ih =>
    intro start
    rw [Cube.walkSide, Cube.neighbors_getD start j hj, ih, List.range_succ_eq_map]
    rw [List.map_cons, List.map_map]
    congr 1
    · ext <;> simp
    · apply List.map_congr_left
      intro k _
      show start + nOff j + (nOff j).mulScalar (k : Int)
        = start + (nOff j).mulScalar ((k + 1 : Nat) : Int)
      ext <;> simp <;> ring

theorem Cube.ring_eq (c : Cube) (r : Nat) (hr : 1 ≤ r) :
    c.ring r = (List.range 6).flatMap (fun s =>
      (List.range r).map (fun k => Cube.ringPoint c r s k)) := by
  unfold Cube.ring
  rw [if_neg (by omega)]
  apply flatMap_congr_mem
  intro s hs
  have hs6 : s < 6 := by simpa using hs
  have hj : (s + 2) % 6 < 6 := Nat.mod_lt _ (by omega)
  rw [Cube.walkSide_eq ((s + 2) % 6) hj r]
  apply List.map_congr_left
  intro k _
  have hoff : (Cube.fromTuple (Cube.NEIGHBOR_OFFSETS.getD s (0, 0, 0))).getD Cube.ORIGIN
      = nOff s := by
    interval_cases s <;> rfl
  rw [hoff]
  unfold Cube.ringPoint
  ext <;> simp <;> ring

theorem Cube.ringPoint_x (c : Cube) (r s k : Nat) :
    (Cube.ringPoint c r s k).x = c.x + (nOff s).x * r + (nOff ((s + 2) % 6)).x * k := rfl

theorem Cube.ringPoint_y (c : Cube) (r s k : Nat) :
    (Cube.ringPoint c r s k).y = c.y + (nOff s).y * r + (nOff ((s + 2) % 6)).y * k := rfl

theorem Cube.ringPoint_z (c : Cube) (r s k : Nat) :
    (Cube.ringPoint c r s k).z = c.z + (nOff s).z * r + (nOff ((s + 2) % 6)).z * k := rfl

theorem Cube.ringPoint_inj {c : Cube} {r s k s' k' : Nat}
    (hs : s < 6) (hs' : s' < 6) (hk : k < r) (hk' : k' < r)
    (h : Cube.ringPoint c r s k = Cube.ringPoint c r s' k') : s = s' ∧ k = k' := by
  have hx := congrArg Cube.x h
  have hy := congrArg Cube.y h
  have hz := congrArg Cube.z h
  rw [Cube.ringPoint_x, Cube.ringPoint_x] at hx
  rw [Cube.ringPoint_y, Cube.ringPoint_y] at hy
  rw [Cube.ringPoint_z, Cube.ringPoint_z] at hz
  interval_cases s <;> interval_cases s' <;>
    simp [nOff] at hx hy hz <;> omega

theorem Cube.mem_ring_iff {c v : Cube} {r : Nat} (hr : 1 ≤ r) (hc : c.valid) (hv : v.valid) :
    v ∈ c.ring r ↔ c.dist v = (r : Int) := by
  have hc' : c.x + c.y + c.z = 0 := hc
  have hv' : v.x + v.y + v.z = 0 := hv
  rw [Cube.ring_eq c r hr]
  simp only [List.mem_flatMap, List.mem_map, List.mem_range]
  constructor
  · rintro ⟨s, hs, k, hk, rfl⟩
    interval_cases s <;>
      simp [Cube.dist, Cube.ringPoint_x, Cube.ringPoint_y, Cube.ringPoint_z, nOff,
        Int.abs_eq_natAbs, -Int.natCast_natAbs] <;> omega
  · intro hd
    have hfacts : (v.x - c.x ≤ r ∧ c.x - v.x ≤ r ∧ v.y - c.y ≤ r ∧ c.y - v.y ≤ r
          ∧ v.z - c.z ≤ r ∧ c.z - v.z ≤ r)
        ∧ (v.x - c.x = r ∨ c.x - v.x = r ∨ v.y - c.y = r ∨ c.y - v.y = r
          ∨ v.z - c.z = r ∨ c.z - v.z = r) := by
      simp only [Cube.dist, Int.abs_eq_natAbs] at hd
      omega
    obtain ⟨hb, hcase⟩ := hfacts
    rcases hcase with h | h | h | h | h | h
    · by_cases hsub : c.y - v.y = r
      · exact ⟨1, by omega, 0, by omega, by ext <;> simp [Cube.ringPoint_x, Cube.ringPoint_y, Cube.ringPoint_z, nOff] <;> omega⟩
      · exact ⟨0, by omega, (c.y - v.y).toNat, by omega,
          by ext <;> simp [Cube.ringPoint_x, Cube.ringPoint_y, Cube.ringPoint_z, nOff] <;> omega⟩
    · by_cases hsub : v.y - c.y = r
      · exact ⟨4, by omega, 0, by omega, by ext <;> simp [Cube.ringPoint_x, Cube.ringPoint_y, Cube.ringPoint_z, nOff] <;> omega⟩
      · exact ⟨3, by omega, (v.y - c.y).toNat, by omega,
          by ext <;> simp [Cube.ringPoint_x, Cube.ringPoint_y, Cube.ringPoint_z, nOff] <;> omega⟩
    · by_cases hsub : v.x - c.x = 0
      · exact ⟨5, by omega, 0, by omega, by ext <;> simp [Cube.ringPoint_x, Cube.ringPoint_y, Cube.ringPoint_z, nOff] <;> omega⟩
      · exact ⟨4, by omega, (v.x - c.x + r).toNat, by omega,
          by ext <;> simp [Cube.ringPoint_x, Cube.ringPoint_y, Cube.ringPoint_z, nOff] <;> omega⟩
    · by_cases hsub : v.x - c.x = 0
      · exact ⟨2, by omega, 0, by omega, by ext <;> simp [Cube.ringPoint_x, Cube.ringPoint_y, Cube.ringPoint_z, nOff] <;> omega⟩
      · exact ⟨1, by omega, (r - (v.x - c.x)).toNat, by omega,
          by ext <;> simp [Cube.ringPoint_x, Cube.ringPoint_y, Cube.ringPoint_z, nOff] <;> omega⟩
    · by_cases hsub : c.x - v.x = r
      · exact ⟨3, by omega, 0, by omega, by ext <;> simp [Cube.ringPoint_x, Cube.ringPoint_y, Cube.ringPoint_z, nOff] <;> omega⟩
      · exact ⟨2, by omega, (c.x - v.x).toNat, by omega,
          by ext <;> simp [Cube.ringPoint_x, Cube.ringPoint_y, Cube.ringPoint_z, nOff] <;> omega⟩
    · by_cases hsub : v.x - c.x = r
      · exact ⟨0, by omega, 0, by omega, by ext <;> simp [Cube.ringPoint_x, Cube.ringPoint_y, Cube.ringPoint_z, nOff] <;> omega⟩
      · exact ⟨5, by omega, (v.x - c.x).toNat, by omega,
          by ext <;> simp [Cube.ringPoint_x, Cube.ringPoint_y, Cube.ringPoint_z, nOff] <;> omega⟩

theorem nodup_flatMap_of {α β : Type} (l : List α) (f : α → List β)
    (hl : l.Nodup) (h1 : ∀ a ∈ l, (f a).Nodup)
    (h2 : ∀ a ∈ l, ∀ b ∈ l, a ≠ b → ∀ x ∈ f a, x ∉ f b) :
    (l.flatMap f).Nodup := by
  induction l with
  | nil => simp
  | cons a t ih =>
    simp only [List.flatMap_cons]
    apply List.Nodup.append
    · exact h1 a (by simp)
    · exact ih (List.nodup_cons.mp hl).2 (fun b hb => h1 b (by simp [hb]))
        (fun b hb b' hb' hne => h2 b (by simp [hb]) b' (by simp [hb']) hne)
    · intro x hxa hxt
      rcases List.mem_flatMap.mp hxt with ⟨b, hb, hxb⟩
      have hab : a ≠ b := by
        rintro rfl
        exact (List.nodup_cons.mp hl).1 hb
      exact h2 a (by simp) b (by simp [hb]) hab x hxa hxb

theorem Cube.ring_nodup (c : Cube) (r : Nat) (hr : 1 ≤ r) : (c.ring r).Nodup := by
  rw [Cube.ring_eq c r hr]
  apply nodup_flatMap_of
  · exact List.nodup_range 6
  · intro s hs
    have hs6 : s < 6 := by simpa using hs
    apply List.Nodup.map_on ?_ (List.nodup_range r)
    intro k hk k' hk' heq
    exact (Cube.ringPoint_inj hs6 hs6 (by simpa using hk) (by simpa using hk') heq).2
  · intro s hs s' hs' hne x hx hx'
    have hs6 : s < 6 := by simpa using hs
    have hs6' : s' < 6 := by simpa using hs'
    rcases List.mem_map.mp hx with ⟨k, hk, rfl⟩
    rcases List.mem_map.mp hx' with ⟨k', hk', heq⟩
    exact hne ((Cube.ringPoint_inj hs6' hs6 (by simpa using hk') (by simpa using hk)
      heq).1).symm

theorem Cube.ring_zero (c : Cube) : c.ring 0 = [c] := by
  simp [Cube.ring]

theorem Cube.ring_length (c : Cube) (r : Nat) :
    (c.ring r).length = if r = 0 then 1 else 6 * r := by
  by_cases h : r = 0
  · subst h; simp [Cube.ring_zero]
  · rw [if_neg h, Cube.ring_eq c r (by omega)]
    rw [show List.range 6 = [0, 1, 2, 3, 4, 5] from rfl]
    simp [List.flatMap_cons]
    omega

theorem Cube.mem_ring_valid {c v : Cube} {r : Nat} (hc : c.valid) (hv : v ∈ c.ring r) :
    v.valid := by
  by_cases h : r = 0
  · subst h
    rw [Cube.ring_zero] at hv
    simp at hv
    subst hv
    exact hc
  · rw [Cube.ring_eq c r (by omega)] at hv
    rcases List.mem_flatMap.mp hv with ⟨s, _, hm⟩
    rcases List.mem_map.mp hm with ⟨k, _, rfl⟩
    exact Cube.ringPoint_valid c r s k hc

theorem Cube.spiral_zero (c : Cube) : c.spiral 0 = [c] := by
  unfold Cube.spiral
  rw [show List.range 1 = [0] from rfl]
  simp [Cube.ring_zero]

theorem Cube.spiral_succ (c : Cube) (r : Nat) :
    c.spiral (r + 1) = c.spiral r ++ c.ring (r + 1) := by
  unfold Cube.spiral
  rw [List.range_succ]
  simp

theorem Cube.spiral_length (c : Cube) (r : Nat) :
    (c.spiral r).length = 1 + 3 * r * (r + 1) := by
  induction r with
  | zero => simp [Cube.spiral_zero]
  | succ n ih =>
    rw [Cube.spiral_succ, List.length_append, ih, Cube.ring_length, if_neg (by omega)]
    ring

theorem Cube.spiral_count (c : Cube) (hc : c.valid) (r : Nat) :
    (c.spiral r).count c = 1 := by
  induction r with
  | zero => simp [Cube.spiral_zero]
  | succ n ih =>
    rw [Cube.spiral_succ, List.count_append, ih]
    have hnm : c ∉ c.ring (n + 1) := by
      intro hm
      have hd := (Cube.mem_ring_iff (by omega) hc hc).mp hm
      rw [Cube.dist_self] at hd
      omega
    rw [List.count_eq_zero.mpr hnm]

theorem Cube.mem_spiral_valid {c v : Cube} {r : Nat} (hc : c.valid) (hv : v ∈ c.spiral r) :
    v.valid := by
  unfold Cube.spiral at hv
  rcases List.mem_flatMap.mp hv with ⟨i, _, hm⟩
  exact Cube.mem_ring_valid hc hm

/-! ## Claim theorems -/

/-- C9: for every Cube c and every index i in 0..6,
c.neighbor(i).neighbor((i+3) % 6) = c; neighbor indices wrap modulo 6
(c.neighbor i = c.neighbor (i+6)); neighbor 0 is the Northeast offset
(1, 0, -1); and successive indices step through the six fixed unit vectors
of the clockwise table nOff. -/
theorem cube_neighbor_spec (c : Cube) (i : Nat) :
    (i < 6 → (c.neighbor i).neighbor ((i + 3) % 6) = c)
    ∧ c.neighbor i = c.neighbor (i + 6)
    ∧ c.neighbor 0 = c + ⟨1, 0, -1⟩
    ∧ c.neighbor i = c + nOff (i % 6) := by
  refine ⟨?_, ?_, ?_, Cube.neighbor_eq c i⟩
  · intro hi
    rw [Cube.neighbor_eq, Cube.neighbor_eq]
    interval_cases i <;> (ext <;> simp [nOff])
  · rw [Cube.neighbor_eq, Cube.neighbor_eq, Nat.add_mod_right]
  · rw [Cube.neighbor_eq]
    rfl

/-- Witness for C9: the neighbor involution evaluated at the concrete cube
(1, 2, -3) with index 2. -/
theorem cube_neighbor_spec_witness :
    (2 : Nat) < 6
    ∧ ((Cube.mk 1 2 (-3)).neighbor 2).neighbor ((2 + 3) % 6) = Cube.mk 1 2 (-3) :=
  ⟨by decide, (cube_neighbor_spec ⟨1, 2, -3⟩ 2).1 (by decide)⟩

/-- C10: set_coords is total, stores exactly (x, y, -x-y), ignores its third
argument entirely, and always leaves the coordinate zero-sum. -/
theorem cube_set_coords_spec (c : Cube) (x y z w : Int) :
    c.setCoords x y z = ⟨x, y, 0 - x - y⟩
    ∧ c.setCoords x y z = c.setCoords x y w
    ∧ (c.setCoords x y z).valid :=
  ⟨rfl, rfl, Cube.setCoords_valid c x y z⟩

/-- C7: conversion out of the union succeeds exactly on a matching tag
(with Cube additionally accepted for Axial and vice versa), every mismatch
produces an error VALUE (the conversions are total into a Result), and the
round trip through the union is the identity for each concrete coordinate
type. -/
theorem multicoord_conversion_spec :
    (∀ m : MultiCoord,
      ((∃ a, m.toAxial = Except.ok a) ↔ (m.sys = CoordSys.Axial ∨ m.sys = CoordSys.Cube))
      ∧ ((∃ cu, m.toCube = Except.ok cu) ↔ (m.sys = CoordSys.Axial ∨ m.sys = CoordSys.Cube))
      ∧ ((∃ d, m.toDouble = Except.ok d) ↔ m.sys = CoordSys.Double)
      ∧ ((∃ o, m.toOffset = Except.ok o) ↔ m.sys = CoordSys.Offset)
      ∧ ((∃ a, m.toAxial = Except.ok a) ∨ (∃ e, m.toAxial = Except.error e))
      ∧ ((∃ cu, m.toCube = Except.ok cu) ∨ (∃ e, m.toCube = Except.error e))
      ∧ ((∃ d, m.toDouble = Except.ok d) ∨ (∃ e, m.toDouble = Except.error e))
      ∧ ((∃ o, m.toOffset = Except.ok o) ∨ (∃ e, m.toOffset = Except.error e)))
    ∧ (∀ a : Axial, (MultiCoord.fromAxial a).toAxial = Except.ok a)
    ∧ (∀ cu : Cube, (MultiCoord.fromCube cu).toCube = Except.ok cu)
    ∧ (∀ d : Double, (MultiCoord.fromDouble d).toDouble = Except.ok d)
    ∧ (∀ o : Offset, (MultiCoord.fromOffset o).toOffset = Except.ok o) := by
  refine ⟨?_, ?_, ?_, ?_, ?_⟩
  · intro m
    rcases m with ⟨sys, a, b, c⟩
    cases sys <;>
      simp [MultiCoord.toAxial, MultiCoord.toCube, MultiCoord.toDouble, MultiCoord.toOffset]
  · intro a; cases a; rfl
  · intro cu; cases cu; rfl
  · intro d; cases d; rfl
  · intro o; cases o; rfl

/-- C8 counterexample: dividing by zero is a panic in the source (`none` in
the embedding, matching the impl's documented "Panics when trying to divide
by zero"); the `Div` impl returns plain `Self`, so no `DivisionByZero`
error value is ever returned to the caller, contradicting the claim that
the failure is a local, recoverable returned value. -/
theorem cube_div_zero_panics : Cube.div Cube.ORIGIN 0 = none := rfl

/-- C8 amended: dividing a Cube by zero panics (modelled as `none`); dividing
by any nonzero scalar succeeds and truncates each component toward zero. -/
theorem cube_div_spec (c : Cube) (n : Int) :
    (n ≠ 0 → c.div n = some ⟨c.x.tdiv n, c.y.tdiv n, c.z.tdiv n⟩)
    ∧ c.div 0 = none := by
  constructor
  · intro hn
    simp [Cube.div, hn]
  · simp [Cube.div]

/-- Witness for C8 at (12, 24, -36) divided by 2. -/
theorem cube_div_spec_witness :
    (2 : Int) ≠ 0
    ∧ Cube.div ⟨12, 24, -36⟩ 2
      = some ⟨Int.tdiv 12 2, Int.tdiv 24 2, Int.tdiv (-36) 2⟩ :=
  ⟨by decide, (cube_div_spec ⟨12, 24, -36⟩ 2).1 (by decide)⟩

/-- C3 counterexample: the valid cube (1, 1, -2) — accepted by the public
constructor — divided by the scalar 2 yields (0, 0, -1), whose components
do not sum to zero: truncating scalar division can violate the Cube
invariant, so not every operation that yields a Cube preserves it. -/
theorem cube_div_breaks_invariant :
    Cube.fromCoords 1 1 (-2) = Except.ok ⟨1, 1, -2⟩
    ∧ Cube.div ⟨1, 1, -2⟩ 2 = some ⟨0, 0, -1⟩
    ∧ ¬ (Cube.mk 0 0 (-1)).valid :=
  ⟨rfl, rfl, by decide⟩

/-- C3 amended: the zero-sum invariant is checked at construction and is
preserved by add, subtract, scalar multiply, set_coords, neighbor,
diagonal, both rotations, ring and spiral; scalar division preserves it
only when the divisor divides each component exactly (in general its
truncation can break it, see the counterexample). -/
theorem cube_invariant_preservation :
    (∀ x y z cu, Cube.fromCoords x y z = Except.ok cu → cu.valid)
    ∧ (∀ a b : Cube, a.valid → b.valid → (a + b).valid)
    ∧ (∀ a b : Cube, a.valid → b.valid → (a - b).valid)
    ∧ (∀ (a : Cube) (n : Int), a.valid → (a.mulScalar n).valid)
    ∧ (∀ (c : Cube) (x y z : Int), (c.setCoords x y z).valid)
    ∧ (∀ (c : Cube) (i : Nat), c.valid → (c.neighbor i).valid)
    ∧ (∀ (c : Cube) (i : Nat), c.valid → (c.diagonal i).valid)
    ∧ (∀ (c p : Cube) (n : Nat), c.valid → p.valid → (c.rotateCw p n).valid)
    ∧ (∀ (c p : Cube) (n : Nat), c.valid → p.valid → (c.rotateCc p n).valid)
    ∧ (∀ (c v : Cube) (r : Nat), c.valid → v ∈ c.ring r → v.valid)
    ∧ (∀ (c v : Cube) (r : Nat), c.valid → v ∈ c.spiral r → v.valid)
    ∧ (∀ (a d : Cube) (n : Int), a.valid → n ∣ a.x → n ∣ a.y → n ∣ a.z →
        a.div n = some d → d.valid) := by
  refine ⟨?_, fun a b ha hb => Cube.add_valid ha hb, fun a b ha hb => Cube.sub_valid ha hb,
    fun a n ha => Cube.mulScalar_valid n ha, fun c x y z => Cube.setCoords_valid c x y z,
    ?_, ?_, fun c p n hc hp => Cube.rotateCw_valid hc hp n,
    fun c p n hc hp => Cube.rotateCc_valid hc hp n,
    fun c v r hc hv => Cube.mem_ring_valid hc hv,
    fun c v r hc hv => Cube.mem_spiral_valid hc hv, ?_⟩
  · intro x y z cu h
    rw [Cube.fromCoords] at h
    by_cases hz : z = 0 - x - y
    · rw [if_pos hz] at h
      injection h with h2
      rw [← h2]
      show x + y + z = 0
      omega
    · rw [if_neg hz] at h
      cases h
  · intro c i hc
    rw [Cube.neighbor_eq]
    exact Cube.add_valid hc (nOff_valid _)
  · intro c i hc
    rw [Cube.diagonal_eq]
    exact Cube.add_valid hc (dOff_valid _)
  · intro a d n ha hdx hdy hdz hsome
    rw [Cube.div] at hsome
    by_cases hn : n = 0
    · rw [if_pos hn] at hsome
      cases hsome
    · rw [if_neg hn] at hsome
      injection hsome with h2
      obtain ⟨p, hp⟩ := hdx
      obtain ⟨q, hq⟩ := hdy
      obtain ⟨t, ht⟩ := hdz
      have ha' : a.x + a.y + a.z = 0 := ha
      rw [hp, hq, ht] at ha'
      have hsum : n * (p + q + t) = 0 := by linear_combination ha'
      have hpqt : p + q + t = 0 := by
        rcases mul_eq_zero.mp hsum with h | h
        · exact absurd h hn
        · exact h
      rw [← h2]
      show (a.x.tdiv n) + (a.y.tdiv n) + (a.z.tdiv n) = 0
      rw [hp, hq, ht, Int.mul_tdiv_cancel_left p hn, Int.mul_tdiv_cancel_left q hn,
        Int.mul_tdiv_cancel_left t hn]
      exact hpqt

/-- Witness for C3 at concrete valid cubes. -/
theorem cube_invariant_preservation_witness :
    (Cube.mk 1 2 (-3)).valid ∧ (Cube.mk 2 (-5) 3).valid
    ∧ ((Cube.mk 1 2 (-3)) + (Cube.mk 2 (-5) 3)).valid :=
  ⟨by decide, by decide,
    cube_invariant_preservation.2.1 ⟨1, 2, -3⟩ ⟨2, -5, 3⟩ (by decide) (by decide)⟩

/-- C4: evaluation of the Double/Sharp neighbor-conversion mismatch at the
origin.  The 0-th sharp neighbor of Double (0,0) is Double (1,-1) — a valid
Double, col + row even — but sharp_to_cube maps it to Cube (1,-1,0)
(because z = row / 2 truncates -1 to 0), while the 0-th Cube neighbor of
sharp_to_cube (0,0) = (0,0,0) is (1,0,-1).  The Sharp Double-to-Cube
conversion therefore truncates on valid coordinates and breaks the
cross-representation neighbor-order contract. -/
theorem double_sharp_conversion_eval :
    ((Double.mk 0 0).sharp_neighbors).getD 0 ⟨0, 0⟩ = ⟨1, -1⟩
    ∧ (Double.mk 1 (-1)).valid
    ∧ (Double.mk 1 (-1)).sharp_to_cube = ⟨1, -1, 0⟩
    ∧ ((Double.mk 0 0).sharp_to_cube).neighbor 0 = ⟨1, 0, -1⟩
    ∧ (Cube.mk 1 (-1) 0) ≠ (Cube.mk 1 0 (-1)) :=
  ⟨rfl, by decide, rfl, rfl, by decide⟩

/-- C1: evaluation of Add on the empty default grid at the origin.  The
insertion succeeds, but nlink — which tests the occupancy of the inserted
coordinate itself instead of each neighbor, with a direction that
rotate_cw never advances — attaches twelve self-loop edges
(labelled Northeast/Southwest) to the new node even though no neighbor is
occupied, violating the no-self-edge / edge-iff-neighbor-occupied
invariant. -/
theorem grid_add_self_loop_edges :
    (HexGrid.add (HexGrid.defaultGrid Int) (MultiCoord.fromCube Cube.ORIGIN) 0).map
        (Except.map (fun g => g.graph.edges))
      = some (Except.ok
          [(0, 0, Compass.Northeast), (0, 0, Compass.Southwest),
           (0, 0, Compass.Northeast), (0, 0, Compass.Southwest),
           (0, 0, Compass.Northeast), (0, 0, Compass.Southwest),
           (0, 0, Compass.Northeast), (0, 0, Compass.Southwest),
           (0, 0, Compass.Northeast), (0, 0, Compass.Southwest),
           (0, 0, Compass.Northeast), (0, 0, Compass.Southwest)])
    ∧ (HexGrid.add (HexGrid.defaultGrid Int) (MultiCoord.fromCube Cube.ORIGIN) 0).map
        (Except.map (fun g => g.map))
      = some (Except.ok [(Cube.ORIGIN, 0)]) :=
  ⟨rfl, rfl⟩

/-- C2: evaluation of Update.  On a vacant coordinate it returns the
NotOccupied-style error and performs no mutation, but on an OCCUPIED
coordinate it delegates to set, whose occupied arm is `unimplemented!()` —
a panic (`none` in the embedding) — so the claimed success-and-overwrite
path never executes. -/
theorem grid_update_occupied_panics :
    (HexGrid.set (HexGrid.defaultGrid Int) (MultiCoord.fromCube Cube.ORIGIN) 0).isSome = true
    ∧ HexGrid.update
        ((HexGrid.set (HexGrid.defaultGrid Int) (MultiCoord.fromCube Cube.ORIGIN) 0).getD
          (HexGrid.defaultGrid Int))
        (MultiCoord.fromCube Cube.ORIGIN) 1 = none
    ∧ HexGrid.update (HexGrid.defaultGrid Int) (MultiCoord.fromCube Cube.ORIGIN) 1
      = some (Except.error "Grid contains no value at the coordinate") :=
  ⟨rfl, rfl, rfl⟩

/-- C6: evaluation of NewRadial.  NewRadial(1, 0) does populate exactly the
seven coordinates of Spiral(1), but the resulting grid's preferred system
tag is Axial — the Default of CoordSys, never overridden — not the Cube the
claim (and the function's own doc comment) promises; and NewRadial(0, 0)
deliberately yields an empty grid rather than Spiral(0). -/
theorem new_radial_eval :
    (HexGrid.newRadial 1 (0 : Int)).map (fun g => g.sys) = some CoordSys.Axial
    ∧ CoordSys.Axial ≠ CoordSys.Cube
    ∧ (HexGrid.newRadial 1 (0 : Int)).map (fun g => g.map.map Prod.fst)
      = some (Cube.ORIGIN.spiral 1)
    ∧ (HexGrid.newRadial 0 (0 : Int)).map (fun g => g.map) = some [] :=
  ⟨rfl, by decide, rfl, rfl⟩

/-- C5: ring 0 is exactly [c]; for r at least 1 the ring has 6r coordinates
without duplicates, its members are exactly the valid coordinates at
Chebyshev distance r from c, and its order is the walk of the six sides
(side s starts r steps along neighbor direction s and is walked in
direction (s+2) % 6, i.e. a continuous clockwise traversal starting r
steps along direction 0); the spiral is the concatenation of rings 0..r,
has 1 + 3r(r+1) coordinates, and contains c exactly once. -/
theorem cube_ring_spiral_spec (c : Cube) (hc : c.valid) (r : Nat) :
    c.ring 0 = [c]
    ∧ (1 ≤ r →
        (c.ring r).length = 6 * r
        ∧ (c.ring r).Nodup
        ∧ (∀ v : Cube, v.valid → (v ∈ c.ring r ↔ c.dist v = (r : Int)))
        ∧ c.ring r = (List.range 6).flatMap (fun s =>
            (List.range r).map (fun k => Cube.ringPoint c r s k)))
    ∧ c.spiral r = (List.range (r + 1)).flatMap (fun i => c.ring i)
    ∧ (c.spiral r).length = 1 + 3 * r * (r + 1)
    ∧ (c.spiral r).count c = 1 := by
  refine ⟨Cube.ring_zero c, ?_, rfl, Cube.spiral_length c r, Cube.spiral_count c hc r⟩
  intro hr
  exact ⟨by rw [Cube.ring_length, if_neg (by omega)],
    Cube.ring_nodup c r hr,
    fun v hv => Cube.mem_ring_iff hr hc hv,
    Cube.ring_eq c r hr⟩

/-- Witness for C5 at the origin with radius 2. -/
theorem cube_ring_spiral_spec_witness :
    Cube.ORIGIN.valid ∧ (Cube.ORIGIN.ring 2).length = 6 * 2 :=
  ⟨by decide, ((cube_ring_spiral_spec Cube.ORIGIN (by decide) 2).2.1 (by decide)).1⟩


end Chickenwire
